import Mathlib

/-!
# DSA beamformer: host-side definitions of `beamformer.hh`

A shallow embedding of the configuration constants and utility functions of
`src/beamformer.hh`, with the properties of the specification that concern them.

* C `int` values are `Int`; C `/` and `%` are `Int.tdiv` and `Int.tmod`
  (truncation toward zero).
* Preprocessor definitions are expression trees (`CExpr`), spliced the way the
  preprocessor splices their text, with two evaluators: over the integers
  (`CExpr.eval`) and in 32-bit signed arithmetic (`CExpr.eval32`), where a
  result outside the `int` range is `none`.
* Bitwise operators act on the 32-bit two's-complement pattern of an `int`.
-/

namespace DSA

/-! ## Configuration constants -/

/-- The literal constants of `beamformer.hh` from which the sizes are derived. -/
structure Config where
  N_BEAMS : Int
  N_ANTENNAS : Int
  N_FREQUENCIES : Int
  N_POL : Int
  N_CX : Int
  N_AVERAGING : Int
  N_GEMMS_PER_GPU : Int
  N_OUTPUTS_PER_GEMM : Int
  N_GEMMS_PER_BLOCK : Int
  N_DIRS : Int
deriving DecidableEq, Repr

/-- The constants of the build without `DEBUG`: `N_AVERAGING` is 16. -/
def production : Config where
  N_BEAMS := 256
  N_ANTENNAS := 64
  N_FREQUENCIES := 256
  N_POL := 2
  N_CX := 2
  N_AVERAGING := 16
  N_GEMMS_PER_GPU := 256
  N_OUTPUTS_PER_GEMM := 8
  N_GEMMS_PER_BLOCK := 64
  N_DIRS := 1024

/-- The constants of the `DEBUG` build: `N_AVERAGING` is 1. -/
def debug : Config where
  N_BEAMS := 256
  N_ANTENNAS := 64
  N_FREQUENCIES := 256
  N_POL := 2
  N_CX := 2
  N_AVERAGING := 1
  N_GEMMS_PER_GPU := 256
  N_OUTPUTS_PER_GEMM := 8
  N_GEMMS_PER_BLOCK := 64
  N_DIRS := 1024

def N_GPUS : Int := 8
def TOT_CHANNELS : Int := 2048
def ZERO_PT : Int := 0
def SIG_BITS : Int := 4
def SIG_MAX_VAL : Int := 7

/-! ## Constant expressions -/

/-- An integer constant expression built from literals, `*` and `/`. -/
inductive CExpr where
  | lit : Int → CExpr
  | mul : CExpr → CExpr → CExpr
  | div : CExpr → CExpr → CExpr
deriving DecidableEq, Repr

/-- Value of an expression over the integers, with C division. -/
def CExpr.eval : CExpr → Int
  | .lit n => n
  | .mul a b => a.eval * b.eval
  | .div a b => Int.tdiv a.eval b.eval

/-- A value that fits a 32-bit signed `int`. -/
def int32 (x : Int) : Option Int :=
  if -2147483648 ≤ x ∧ x ≤ 2147483647 then some x else none

/-- Value of an expression in 32-bit signed arithmetic, operands before the
operation; `none` as soon as a value leaves the `int` range or a divisor is 0. -/
def CExpr.eval32 : CExpr → Option Int
  | .lit n => int32 n
  | .mul a b =>
    match a.eval32, b.eval32 with
    | some x, some y => int32 (x * y)
    | _, _ => none
  | .div a b =>
    match a.eval32, b.eval32 with
    | some x, some y => if y = 0 then none else int32 (Int.tdiv x y)
    | _, _ => none

/-- Expansion of `(N_POL*N_AVERAGING)`. -/
def N_INPUTS_PER_OUTPUT (c : Config) : CExpr :=
  .mul (.lit c.N_POL) (.lit c.N_AVERAGING)

/-- Expansion of `(N_OUTPUTS_PER_GEMM*N_INPUTS_PER_OUTPUT)`. -/
def N_TIMESTEPS_PER_GEMM (c : Config) : CExpr :=
  .mul (.lit c.N_OUTPUTS_PER_GEMM) (N_INPUTS_PER_OUTPUT c)

/-- Expansion of `(N_GEMMS_PER_GPU/N_GEMMS_PER_BLOCK)`. -/
def N_BLOCKS_on_GPU (c : Config) : CExpr :=
  .div (.lit c.N_GEMMS_PER_GPU) (.lit c.N_GEMMS_PER_BLOCK)

/-- Expansion of `(N_ANTENNAS*N_FREQUENCIES*N_TIMESTEPS_PER_GEMM)`. -/
def N_CX_IN_PER_GEMM (c : Config) : CExpr :=
  .mul (.mul (.lit c.N_ANTENNAS) (.lit c.N_FREQUENCIES)) (N_TIMESTEPS_PER_GEMM c)

/-- Expansion of `(N_BEAMS*N_FREQUENCIES*N_TIMESTEPS_PER_GEMM)`. -/
def N_CX_OUT_PER_GEMM (c : Config) : CExpr :=
  .mul (.mul (.lit c.N_BEAMS) (.lit c.N_FREQUENCIES)) (N_TIMESTEPS_PER_GEMM c)

/-- Expansion of `(N_CX_OUT_PER_GEMM/N_INPUTS_PER_OUTPUT)`. -/
def N_F_PER_DETECT (c : Config) : CExpr :=
  .div (N_CX_OUT_PER_GEMM c) (N_INPUTS_PER_OUTPUT c)

/-- Expansion of `(N_CX_IN_PER_GEMM*N_CX)`. -/
def N_BYTES_POST_EXPANSION_PER_GEMM (c : Config) : CExpr :=
  .mul (N_CX_IN_PER_GEMM c) (.lit c.N_CX)

/-- Expansion of `N_CX_IN_PER_GEMM*N_CX/2`, which the header leaves without
parentheses, used on its own. -/
def N_BYTES_PRE_EXPANSION_PER_GEMM (c : Config) : CExpr :=
  .div (.mul (N_CX_IN_PER_GEMM c) (.lit c.N_CX)) (.lit 2)

/-- Expansion of `N_BYTES_PRE_EXPANSION_PER_GEMM*N_GEMMS_PER_BLOCK`, that is
`N_CX_IN_PER_GEMM*N_CX/2*N_GEMMS_PER_BLOCK`, parsed left to right. -/
def N_BYTES_PER_BLOCK (c : Config) : CExpr :=
  .mul (.div (.mul (N_CX_IN_PER_GEMM c) (.lit c.N_CX)) (.lit 2)) (.lit c.N_GEMMS_PER_BLOCK)

/-- Expansion of `N_BYTES_PRE_EXPANSION_PER_GEMM*N_DIRS`, that is
`N_CX_IN_PER_GEMM*N_CX/2*N_DIRS`, parsed left to right. -/
def INPUT_DATA_SIZE (c : Config) : CExpr :=
  .mul (.div (.mul (N_CX_IN_PER_GEMM c) (.lit c.N_CX)) (.lit 2)) (.lit c.N_DIRS)

/-- The averaging window divides the tile: `N_TIMESTEPS_PER_GEMM %
N_INPUTS_PER_OUTPUT == 0` with quotient `N_OUTPUTS_PER_GEMM`, and the division
in `N_F_PER_DETECT` is exact. -/
def AveragingWindowDivides (c : Config) : Prop :=
  Int.tmod (N_TIMESTEPS_PER_GEMM c).eval (N_INPUTS_PER_OUTPUT c).eval = 0 ∧
  Int.tdiv (N_TIMESTEPS_PER_GEMM c).eval (N_INPUTS_PER_OUTPUT c).eval = c.N_OUTPUTS_PER_GEMM ∧
  Int.tmod (N_CX_OUT_PER_GEMM c).eval (N_INPUTS_PER_OUTPUT c).eval = 0 ∧
  (N_F_PER_DETECT c).eval * (N_INPUTS_PER_OUTPUT c).eval = (N_CX_OUT_PER_GEMM c).eval

/-- The raw block size in 32-bit arithmetic: no overflow, one byte per complex
sample, and the expanded tile is twice the packed tile. -/
def BlockSizeExact (c : Config) : Prop :=
  (N_BYTES_PER_BLOCK c).eval32 =
    some (c.N_ANTENNAS * c.N_FREQUENCIES * (N_TIMESTEPS_PER_GEMM c).eval * c.N_GEMMS_PER_BLOCK) ∧
  ((N_BYTES_PRE_EXPANSION_PER_GEMM c).eval32).isSome = true ∧
  (N_BYTES_POST_EXPANSION_PER_GEMM c).eval32 =
    ((N_BYTES_PRE_EXPANSION_PER_GEMM c).eval32).map (fun pre => 2 * pre)

instance (c : Config) : Decidable (BlockSizeExact c) := by
  unfold BlockSizeExact
  infer_instance

instance (c : Config) : Decidable (AveragingWindowDivides c) := by
  unfold AveragingWindowDivides
  infer_instance

/-! ## Packing two 4-bit samples into a byte -/

/-- The 32-bit two's-complement pattern of an `int`. -/
def toBits32 (x : Int) : Nat := (x % 4294967296).toNat

/-- The `int` whose 32-bit two's-complement pattern is `n` (modulo `2^32`). -/
def ofBits32 (n : Nat) : Int :=
  if n % 4294967296 < 2147483648 then ((n % 4294967296 : Nat) : Int)
  else ((n % 4294967296 : Nat) : Int) - 4294967296

/-- C `x << s` on `int`: the pattern shifted left, bits above bit 31 dropped. -/
def shl32 (x : Int) (s : Nat) : Int := ofBits32 (toBits32 x <<< s)

/-- C `x | y` on `int`. -/
def or32 (x y : Int) : Int := ofBits32 (toBits32 x ||| toBits32 y)

/-- C `x & y` on `int`. -/
def and32 (x y : Int) : Int := ofBits32 (toBits32 x &&& toBits32 y)

/-- C `x >> s` on a signed `int`: the arithmetic shift, rounding toward minus
infinity. -/
def sar32 (x : Int) (s : Nat) : Int := x >>> s

/-- Conversion of an `int` to a signed 8-bit `char`: the low 8 bits, read as
two's complement. -/
def toChar (x : Int) : Int := (x + 128) % 256 - 128

/-- The byte stored by `generate_test_data`:
`data[...] = (high << 4) | (0x0F & low);` where `high` and `low` are `char`
values promoted to `int` and the result is converted to `char`. -/
def packed_byte (high low : Int) : Int :=
  toChar (or32 (shl32 high 4) (and32 0x0F low))

/-- The 8 bits of a `char`, as a number in `[0, 256)`. -/
def byteBits (b : Int) : Nat := (b % 256).toNat

/-- Bits 7..4 of a byte. -/
def high_nibble (b : Int) : Nat := byteBits b >>> 4

/-- Bits 3..0 of a byte. -/
def low_nibble (b : Int) : Nat := byteBits b &&& 0x0F

/-- Bit 3 of a nibble. -/
def nibble_sign (n : Nat) : Bool := n.testBit 3

/-- Bits 2..0 of a nibble. -/
def nibble_low3 (n : Nat) : Nat := n &&& 7

/-- Modelled from the spec: the expansion step is not part of `beamformer.hh`.
Section 4.2 describes the wire format as sign-magnitude, magnitude in 3 bits and
sign in bit 3, so the decoder of a nibble is `(-1)^bit3 * bits2..0`. -/
def expand_sign_magnitude (n : Nat) : Int :=
  if nibble_sign n then -((nibble_low3 n : Nat) : Int) else ((nibble_low3 n : Nat) : Int)

/-- The 4-bit two's-complement sign extension of a nibble. -/
def sign_extend4 (n : Nat) : Int :=
  if n % 16 < 8 then ((n % 16 : Nat) : Int) else ((n % 16 : Nat) : Int) - 16

/-! ## Frequency channels of a device -/

/-- The channel number inside `float freq = END_F - (ZERO_PT +
gpu*TOT_CHANNELS/(N_GPUS-1) + i)*BW_PER_CHANNEL;` of `generate_test_data`, with
`gpu` and `i` of type `int`. -/
def chan (gpu i : Int) : Int :=
  ZERO_PT + Int.tdiv (gpu * TOT_CHANNELS) (N_GPUS - 1) + i

/-! ## Geometry files -/

/-- An `antenna` object, `float x, y, z;`. The value a `float` holds is a rational
number, one that `nearest_float` leaves unchanged. -/
structure antenna where
  x : ℚ
  y : ℚ
  z : ℚ
deriving DecidableEq

/-- The constructor `antenna(){x = 0; y = 0; z = 0;}`. -/
def antenna.new : antenna := ⟨0, 0, 0⟩

/-- A `beam_direction` object, `float theta, phi;`. -/
structure beam_direction where
  theta : ℚ
  phi : ℚ
deriving DecidableEq

/-- The constructor `beam_direction(){theta = 0; phi = 0;}`. -/
def beam_direction.new : beam_direction := ⟨0, 0⟩

/-- A geometry file as a sequence of numeric tokens: the first token, the
declared count, and the numbers that the tokens after it denote. -/
structure GeometryFile where
  count : Int
  values : List ℚ

/-- The power `2^e` for an integer exponent. -/
def pow2 (e : Int) : ℚ :=
  if 0 ≤ e then (2 : ℚ) ^ e.toNat else 1 / (2 : ℚ) ^ (-e).toNat

/-- The largest finite `float`, `(2 - 2^-23) * 2^127`. -/
def FLT_MAX : ℚ := 340282346638528859811704183484516925440

/-- The binary exponent used to round a positive number `a` to a `float`: the
`e` with `2^e <= a < 2^(e+1)`, kept inside `[-126, 127]`. -/
def float_exponent (a : ℚ) : Int :=
  -126 + (((List.range 253).filter
    fun (k : Nat) => decide (pow2 (-125 + (k : Int)) ≤ a)).length : Int)

/-- The nearest integer, a tie going to the even one. -/
def round_half_even (r : ℚ) : Int :=
  if r - (⌊r⌋ : ℚ) < 1 / 2 then ⌊r⌋
  else if 1 / 2 < r - (⌊r⌋ : ℚ) then ⌊r⌋ + 1
  else if ⌊r⌋ % 2 = 0 then ⌊r⌋ else ⌊r⌋ + 1

/-- The value that the conversion of a numeric token to `float` yields: the
number with a 24-bit significand (fewer bits below `2^-126`) nearest to `q`, a
tie going to the even significand. A result above `FLT_MAX` in size stands for
an infinite result. -/
def nearest_float (q : ℚ) : ℚ :=
  if q = 0 then 0
  else if q < 0 then
    -((round_half_even (-q / pow2 (float_exponent (-q) - 23)) : ℚ)
      * pow2 (float_exponent (-q) - 23))
  else
    (round_half_even (q / pow2 (float_exponent q - 23)) : ℚ) * pow2 (float_exponent q - 23)

/-- The token converts to a finite `float`. -/
def in_float_range (t : ℚ) : Prop :=
  -FLT_MAX ≤ nearest_float t ∧ nearest_float t ≤ FLT_MAX

instance (t : ℚ) : Decidable (in_float_range t) := by
  unfold in_float_range
  infer_instance

/-- The state of a `std::ifstream`: the numeric tokens not yet consumed, each
given by the number it denotes, and whether `failbit` is set. -/
structure ifstream where
  tokens : List ℚ
  failbit : Bool
deriving DecidableEq

/-- The statement `input_file >> v` for a `float` variable holding `cur`: the new
stream state and the new value of the variable. On a stream that has failed the
extraction does nothing; at the end of the file it sets `failbit` and leaves the
variable as it was; otherwise it consumes one token and stores the nearest
`float`, or, for a token beyond the range of `float`, stores `FLT_MAX` or
`-FLT_MAX` and sets `failbit`. -/
def ifstream.extract (s : ifstream) (cur : ℚ) : ifstream × ℚ :=
  if s.failbit then (s, cur)
  else
    match s.tokens with
    | [] => (⟨[], true⟩, cur)
    | t :: ts =>
      if FLT_MAX < nearest_float t then (⟨ts, true⟩, FLT_MAX)
      else if nearest_float t < -FLT_MAX then (⟨ts, true⟩, -FLT_MAX)
      else (⟨ts, false⟩, nearest_float t)

/-- The statements `input_file.open(file_name); int n; input_file >> n;`: the
stream after the count and the value of `n`. A count outside the range of `int`
sets `failbit` and stores the nearest `int`. -/
def ifstream.open_and_read_count (file : GeometryFile) : ifstream × Int :=
  if file.count < -2147483648 then (⟨file.values, true⟩, -2147483648)
  else if 2147483647 < file.count then (⟨file.values, true⟩, 2147483647)
  else (⟨file.values, false⟩, file.count)

/-- One iteration of the loop of `read_in_position_locations`:
`input_file >> pos[ant].x >> pos[ant].y >> pos[ant].z;`. -/
def read_position (st : ifstream × (Nat → antenna)) (ant : Nat) :
    ifstream × (Nat → antenna) :=
  let x := st.1.extract (st.2 ant).x
  let y := x.1.extract (st.2 ant).y
  let z := y.1.extract (st.2 ant).z
  (z.1, Function.update st.2 ant ⟨x.2, y.2, z.2⟩)

/-- One iteration of the loop of `read_in_beam_directions`:
`input_file >> dir[beam_idx].theta >> dir[beam_idx].phi;`. -/
def read_direction (st : ifstream × (Nat → beam_direction)) (beam_idx : Nat) :
    ifstream × (Nat → beam_direction) :=
  let theta := st.1.extract (st.2 beam_idx).theta
  let phi := theta.1.extract (st.2 beam_idx).phi
  (phi.1, Function.update st.2 beam_idx ⟨theta.2, phi.2⟩)

/-- What `read_in_position_locations` leaves behind: the returned `int`, the
table `pos`, the flag `*pos_set`, and whether the mismatch warning was printed. -/
structure PositionsRead where
  ret : Int
  pos : Nat → antenna
  pos_set : Bool
  warned : Bool

/-- What `read_in_beam_directions` leaves behind: the returned `int`, the table
`dir`, the flag `*dir_set`, and whether the mismatch warning was printed. -/
structure DirectionsRead where
  ret : Int
  dir : Nat → beam_direction
  dir_set : Bool
  warned : Bool

/-- The function `read_in_position_locations(file_name, pos, pos_set)`, on the
file behind `file_name` and the table `pos` as it is before the call. -/
def read_in_position_locations (c : Config) (file : GeometryFile) (pos : Nat → antenna) :
    PositionsRead :=
  let opened := ifstream.open_and_read_count file
  let nant := opened.2
  let after := (List.range c.N_ANTENNAS.toNat).foldl read_position (opened.1, pos)
  { ret := 0, pos := after.2, pos_set := true, warned := decide (nant ≠ c.N_ANTENNAS) }

/-- The function `read_in_beam_directions(file_name, dir, dir_set)`, on the file
behind `file_name` and the table `dir` as it is before the call. -/
def read_in_beam_directions (c : Config) (file : GeometryFile) (dir : Nat → beam_direction) :
    DirectionsRead :=
  let opened := ifstream.open_and_read_count file
  let nbeam := opened.2
  let after := (List.range c.N_BEAMS.toNat).foldl read_direction (opened.1, dir)
  { ret := 0, dir := after.2, dir_set := true, warned := decide (nbeam ≠ c.N_BEAMS) }

/-- The count of a file fits an `int`. -/
def GeometryFile.countFitsInt (file : GeometryFile) : Prop :=
  -2147483648 ≤ file.count ∧ file.count ≤ 2147483647

instance (file : GeometryFile) : Decidable file.countFitsInt := by
  unfold GeometryFile.countFitsInt
  infer_instance

/-- The file without the values after its first `n`. -/
def GeometryFile.truncate (file : GeometryFile) (n : Nat) : GeometryFile :=
  { file with values := file.values.take n }

/-! ## Debug export -/

/-- The inner loop of `write_array_to_disk_as_python_file` for row `jj`, appending
to the text `f` written so far: `f << data_out[jj*cols + ii]; if (ii != cols - 1)
f << ",";` for `ii` from 0 while `ii < cols`. The text `<<` produces for a `float`
is given by `show_float`. -/
def write_row (show_float : ℚ → String) (data_out : Int → ℚ) (cols jj : Int) (f : String) :
    String :=
  (List.range cols.toNat).foldl
    (fun (f : String) (ii : Nat) =>
      let f := f ++ show_float (data_out (jj * cols + (ii : Int)))
      if (ii : Int) ≠ cols - 1 then f ++ "," else f)
    f

/-- The text that `write_array_to_disk_as_python_file(data_out, rows, cols,
output_filename)` writes to the file: `"A = [["`, then for `jj` from 0 while
`jj < rows` the row and `"],\n["` when `jj != rows-1`, `"]]"` and `std::endl`
otherwise. -/
def write_array_to_disk_as_python_file (show_float : ℚ → String) (data_out : Int → ℚ)
    (rows cols : Int) : String :=
  (List.range rows.toNat).foldl
    (fun (f : String) (jj : Nat) =>
      let f := write_row show_float data_out cols (jj : Int) f
      if (jj : Int) ≠ rows - 1 then f ++ "],\n[" else f ++ "]]" ++ "\n")
    "A = [["

/-- The strings of a list with `sep` between consecutive ones. -/
def join_with (sep : String) : List String → String
  | [] => ""
  | [x] => x
  | x :: y :: rest => x ++ sep ++ join_with sep (y :: rest)

/-- Row `jj` of the nested bracket list of the debug export as the specification
describes it: `"["`, the `cols` values `data_out[jj*cols + 0 .. jj*cols + cols-1]`
separated by `","`, `"]"`. -/
def bracketed_row (show_float : ℚ → String) (data_out : Int → ℚ) (cols : Int) (jj : Nat) :
    String :=
  "[" ++ join_with ","
    ((List.range cols.toNat).map fun (ii : Nat) => show_float (data_out ((jj : Int) * cols + (ii : Int))))
    ++ "]"

/-- The row-major nested bracket list of the debug export as the specification
describes it: `"A = ["`, the `rows` bracketed rows separated by `",\n"`, `"]"` and
a newline. -/
def nested_bracket_list (show_float : ℚ → String) (data_out : Int → ℚ) (rows cols : Int) :
    String :=
  "A = [" ++ join_with ",\n"
    ((List.range rows.toNat).map fun (jj : Nat) => bracketed_row show_float data_out cols jj)
    ++ "]" ++ "\n"

/-- Number of occurrences of a character in a text. -/
def count_char (ch : Char) (s : String) : Nat := s.toList.count ch

/-- The first `k` strings of a sequence, each followed by `sep`. -/
def sep_terminated (sep : String) (e : Nat → String) : Nat → String
  | 0 => ""
  | k + 1 => sep_terminated sep e k ++ e k ++ sep

/-! ## Synthetic test data -/

/-- The values of the loop variables of `generate_test_data` in one execution of
the innermost body: `long direction` and `int i, j, k`. -/
structure Iteration where
  direction : Int
  i : Int
  j : Int
  k : Int
deriving DecidableEq, Repr

/-- The executions of the innermost body of `generate_test_data`, in order:
`for (long direction = 0; direction < N_DIRS; direction++)`,
`for (int i = 0; i < N_FREQUENCIES; i++)`,
`for (int j = 0; j < N_TIMESTEPS_PER_GEMM; j++)`,
`for (int k = 0; k < N_ANTENNAS; k++)`. -/
def loop_iterations (c : Config) : List Iteration :=
  (List.range c.N_DIRS.toNat).flatMap fun (direction : Nat) =>
    (List.range c.N_FREQUENCIES.toNat).flatMap fun (i : Nat) =>
      (List.range (N_TIMESTEPS_PER_GEMM c).eval.toNat).flatMap fun (j : Nat) =>
        (List.range c.N_ANTENNAS.toNat).map fun (k : Nat) => ⟨direction, i, j, k⟩

/-- The index of the entry of `pos` that an iteration reads: `pos[k]`. -/
def pos_read (it : Iteration) : Int := it.k

/-- The index of the entry of `dir` that an iteration reads: `dir[direction]`. -/
def dir_read (it : Iteration) : Int := it.direction

/-- The index of the byte of `data` that an iteration writes:
`direction*N_BYTES_PRE_EXPANSION_PER_GEMM + i*stride + j*N_ANTENNAS + k`, where
the first term expands to `direction*(N_CX_IN_PER_GEMM)*N_CX/2`, parsed left to
right. -/
def data_index (c : Config) (stride : Int) (it : Iteration) : Int :=
  Int.tdiv (it.direction * (N_CX_IN_PER_GEMM c).eval * c.N_CX) 2
    + it.i * stride + it.j * c.N_ANTENNAS + it.k

/-- The constant `PI` of the header, `3.14159265358979`. -/
def PI : ℚ := 3.14159265358979

/-- The value of C `round`: the nearest integer, halves away from zero. -/
noncomputable def c_round (x : ℝ) : ℤ :=
  if 0 ≤ x then ⌊x + 1 / 2⌋ else ⌈x - 1 / 2⌉

/-- The argument of `cos` and `sin` in `generate_test_data`, over the reals:
`2*PI*(pos[k].x*sin(dir[direction].x) + pos[k].y*sin(dir[direction].phi))/wavelength`.
The first angle is the one the source names `dir[direction].x`. -/
noncomputable def phase (pos_x pos_y dir_x dir_phi wavelength : ℝ) : ℝ :=
  2 * (PI : ℝ) * (pos_x * Real.sin dir_x + pos_y * Real.sin dir_phi) / wavelength

/-- The sample `round(SIG_MAX_VAL*cos(phase))` before its conversion to `char`. -/
noncomputable def sample_high (pos_x pos_y dir_x dir_phi wavelength : ℝ) : ℤ :=
  c_round ((SIG_MAX_VAL : ℝ) * Real.cos (phase pos_x pos_y dir_x dir_phi wavelength))

/-- The sample `round(SIG_MAX_VAL*sin(phase))` before its conversion to `char`. -/
noncomputable def sample_low (pos_x pos_y dir_x dir_phi wavelength : ℝ) : ℤ :=
  c_round ((SIG_MAX_VAL : ℝ) * Real.sin (phase pos_x pos_y dir_x dir_phi wavelength))

/-! ## Theorems -/

/-! ### Sizes derived from the configuration -/

/-- C4: the averaging window `N_INPUTS_PER_OUTPUT = N_POL*N_AVERAGING` divides
`N_TIMESTEPS_PER_GEMM` with zero remainder and quotient `N_OUTPUTS_PER_GEMM`, and
`N_F_PER_DETECT * N_INPUTS_PER_OUTPUT == N_CX_OUT_PER_GEMM`; this holds in the
production build, in the `DEBUG` build, and for every configuration whose
`N_POL`, `N_AVERAGING`, `N_OUTPUTS_PER_GEMM`, `N_BEAMS` and `N_FREQUENCIES` are
positive. -/
theorem averaging_window_divides_tile :
    AveragingWindowDivides production ∧ AveragingWindowDivides debug ∧
    ∀ c : Config, 0 < c.N_POL → 0 < c.N_AVERAGING → 0 < c.N_OUTPUTS_PER_GEMM →
      0 < c.N_BEAMS → 0 < c.N_FREQUENCIES → AveragingWindowDivides c := by
  have key : ∀ c : Config, 0 < c.N_POL → 0 < c.N_AVERAGING → AveragingWindowDivides c := by
    intro c h1 h2
    have hW : c.N_POL * c.N_AVERAGING ≠ 0 := Int.ne_of_gt (Int.mul_pos h1 h2)
    simp only [AveragingWindowDivides, N_TIMESTEPS_PER_GEMM, N_INPUTS_PER_OUTPUT,
      N_CX_OUT_PER_GEMM, N_F_PER_DETECT, CExpr.eval]
    refine ⟨?_, ?_, ?_, ?_⟩
    · exact Int.mul_tmod_left _ _
    · exact Int.mul_tdiv_cancel _ hW
    · rw [← Int.mul_assoc]
      exact Int.mul_tmod_left _ _
    · apply Int.tdiv_mul_cancel
      exact Dvd.dvd.mul_left (Dvd.intro_left _ rfl) _
  refine ⟨key production (by decide) (by decide), key debug (by decide) (by decide), ?_⟩
  intro c h1 h2 _ _ _
  exact key c h1 h2

/-- Witness of C4: the general statement applied to the production constants. -/
theorem averaging_window_divides_tile_witness :
    (0 : Int) < production.N_POL ∧ AveragingWindowDivides production :=
  ⟨by decide, averaging_window_divides_tile.2.2 production (by decide) (by decide) (by decide)
    (by decide) (by decide)⟩

/-- C5: `N_BYTES_PER_BLOCK`, expanded as `N_CX_IN_PER_GEMM*N_CX/2*N_GEMMS_PER_BLOCK`
and evaluated left to right in 32-bit signed arithmetic, never leaves the `int`
range and equals `N_ANTENNAS * N_FREQUENCIES * N_TIMESTEPS_PER_GEMM *
N_GEMMS_PER_BLOCK`; `N_BYTES_POST_EXPANSION_PER_GEMM` is twice
`N_BYTES_PRE_EXPANSION_PER_GEMM`; in the production build the block is
268435456 bytes. The same holds in the `DEBUG` build, with 16777216 bytes. -/
theorem block_size_exact :
    BlockSizeExact production ∧ BlockSizeExact debug ∧
    (N_BYTES_PER_BLOCK production).eval32 = some 268435456 ∧
    (N_BYTES_PER_BLOCK debug).eval32 = some 16777216 := by
  refine ⟨?_, ?_, ?_, ?_⟩ <;> decide

/-! ### Packing -/

/-- The constant `PI` is positive. -/
theorem PI_pos : (0 : ℝ) < (PI : ℝ) := by
  have h : (0 : ℚ) < PI := by unfold PI; norm_num
  exact_mod_cast h

/-- With an antenna at `(1, 0)`, first direction angle `π/2` and wavelength
`2*PI/θ`, the phase of `generate_test_data` is `θ`. -/
theorem phase_eq (θ : ℝ) : phase 1 0 (Real.pi / 2) 0 (2 * (PI : ℝ) / θ) = θ := by
  have hP : (PI : ℝ) ≠ 0 := ne_of_gt PI_pos
  unfold phase
  rw [Real.sin_pi_div_two]
  field_simp

/-- Bounds on the square root of 2 that place `7 * √2 / 2` between 4.5 and 5.5. -/
theorem sqrt_two_bounds : (9 / 7 : ℝ) < √2 ∧ √2 < (11 / 7 : ℝ) := by
  constructor
  · rw [Real.lt_sqrt (by norm_num)]
    norm_num
  · rw [Real.sqrt_lt' (by norm_num)]
    norm_num

/-- At phase `3π/4` the samples of `generate_test_data` are `(-5, 5)`. -/
theorem samples_at_three_quarter_pi :
    sample_high 1 0 (Real.pi / 2) 0 (2 * (PI : ℝ) / (3 * Real.pi / 4)) = -5 ∧
    sample_low 1 0 (Real.pi / 2) 0 (2 * (PI : ℝ) / (3 * Real.pi / 4)) = 5 := by
  have hp := phase_eq (3 * Real.pi / 4)
  have h34 : 3 * Real.pi / 4 = Real.pi - Real.pi / 4 := by ring
  have hc : Real.cos (3 * Real.pi / 4) = -(√2 / 2) := by
    rw [h34, Real.cos_pi_sub, Real.cos_pi_div_four]
  have hs : Real.sin (3 * Real.pi / 4) = √2 / 2 := by
    rw [h34, Real.sin_pi_sub, Real.sin_pi_div_four]
  obtain ⟨h1, h2⟩ := sqrt_two_bounds
  constructor
  · rw [sample_high, hp, hc, c_round, SIG_MAX_VAL]
    have hneg : ¬ (0 : ℝ) ≤ ((7 : ℤ) : ℝ) * -(√2 / 2) := by
      push_cast
      linarith
    rw [if_neg hneg, Int.ceil_eq_iff]
    push_cast
    constructor <;> linarith
  · rw [sample_low, hp, hs, c_round, SIG_MAX_VAL]
    have hpos : (0 : ℝ) ≤ ((7 : ℤ) : ℝ) * (√2 / 2) := by
      push_cast
      linarith
    rw [if_pos hpos, Int.floor_eq_iff]
    push_cast
    constructor <;> linarith

/-- At phase `-π/4` the samples of `generate_test_data` are `(5, -5)`. -/
theorem samples_at_minus_quarter_pi :
    sample_high 1 0 (Real.pi / 2) 0 (2 * (PI : ℝ) / (-(Real.pi / 4))) = 5 ∧
    sample_low 1 0 (Real.pi / 2) 0 (2 * (PI : ℝ) / (-(Real.pi / 4))) = -5 := by
  have hp := phase_eq (-(Real.pi / 4))
  have hc : Real.cos (-(Real.pi / 4)) = √2 / 2 := by
    rw [Real.cos_neg, Real.cos_pi_div_four]
  have hs : Real.sin (-(Real.pi / 4)) = -(√2 / 2) := by
    rw [Real.sin_neg, Real.sin_pi_div_four]
  obtain ⟨h1, h2⟩ := sqrt_two_bounds
  constructor
  · rw [sample_high, hp, hc, c_round, SIG_MAX_VAL]
    have hpos : (0 : ℝ) ≤ ((7 : ℤ) : ℝ) * (√2 / 2) := by
      push_cast
      linarith
    rw [if_pos hpos, Int.floor_eq_iff]
    push_cast
    constructor <;> linarith
  · rw [sample_low, hp, hs, c_round, SIG_MAX_VAL]
    have hneg : ¬ (0 : ℝ) ≤ ((7 : ℤ) : ℝ) * -(√2 / 2) := by
      push_cast
      linarith
    rw [if_neg hneg, Int.ceil_eq_iff]
    push_cast
    constructor <;> linarith

/-- C1, as stated, fails at sample pairs that `generate_test_data` produces. At
phase `3π/4` the samples are `high = -5`, `low = 5`; the stored byte is `0xB5`,
whose bits 6..4 are 3 and not `|high| = 5`, and the sign-magnitude decoder turns
its high nibble into -3. At phase `-π/4` the samples are `high = 5`, `low = -5`;
the stored byte is `0x5B`, whose bits 2..0 are 3 and not `|low| = 5`, and the
sign-magnitude decoder turns its low nibble into -3. -/
theorem packed_byte_not_sign_magnitude :
    (sample_high 1 0 (Real.pi / 2) 0 (2 * (PI : ℝ) / (3 * Real.pi / 4)) = -5 ∧
      sample_low 1 0 (Real.pi / 2) 0 (2 * (PI : ℝ) / (3 * Real.pi / 4)) = 5 ∧
      byteBits (packed_byte (-5) 5) = 0xB5 ∧
      nibble_low3 (high_nibble (packed_byte (-5) 5)) = 3 ∧ Int.natAbs (-5) = 5 ∧
      expand_sign_magnitude (high_nibble (packed_byte (-5) 5)) = -3) ∧
    (sample_high 1 0 (Real.pi / 2) 0 (2 * (PI : ℝ) / (-(Real.pi / 4))) = 5 ∧
      sample_low 1 0 (Real.pi / 2) 0 (2 * (PI : ℝ) / (-(Real.pi / 4))) = -5 ∧
      byteBits (packed_byte 5 (-5)) = 0x5B ∧
      nibble_low3 (low_nibble (packed_byte 5 (-5))) = 3 ∧ Int.natAbs (-5) = 5 ∧
      expand_sign_magnitude (low_nibble (packed_byte 5 (-5))) = -3) :=
  ⟨⟨samples_at_three_quarter_pi.1, samples_at_three_quarter_pi.2, by decide, by decide,
      by decide, by decide⟩,
    ⟨samples_at_minus_quarter_pi.1, samples_at_minus_quarter_pi.2, by decide, by decide,
      by decide, by decide⟩⟩

/-- C1, amended: for `high`, `low` in `[-7, 7]` the stored byte holds each sample
as a 4-bit two's-complement nibble. Bit 7 is the sign of `high` and bit 3 the sign
of `low`. The three bits below the sign hold `|v|` when the sample `v` is not
negative and `8 - |v|` when it is, so they hold `|v|` exactly when `v` is in
`[0, 7]` or is -4. The sign-magnitude decoder returns `v` for `v` in `[0, 7]` and
`-(8 + v)` for `v` in `[-7, -1]`, so it returns the packed sample exactly when
`v` is in `[0, 7]` or is -4. Two's-complement sign extension of the nibble
returns `v` for every `v` in `[-7, 7]`. All of this holds in both nibble
positions. -/
theorem packed_byte_twos_complement (high low : Int)
    (hh : -7 ≤ high ∧ high ≤ 7) (hl : -7 ≤ low ∧ low ≤ 7) :
    (nibble_sign (high_nibble (packed_byte high low)) = decide (high < 0) ∧
      nibble_sign (low_nibble (packed_byte high low)) = decide (low < 0)) ∧
    (high_nibble (packed_byte high low) = (high % 16).toNat ∧
      low_nibble (packed_byte high low) = (low % 16).toNat) ∧
    (nibble_low3 (high_nibble (packed_byte high low))
        = (if 0 ≤ high then high.natAbs else 8 - high.natAbs) ∧
      nibble_low3 (low_nibble (packed_byte high low))
        = (if 0 ≤ low then low.natAbs else 8 - low.natAbs)) ∧
    ((nibble_low3 (high_nibble (packed_byte high low)) = high.natAbs ↔ 0 ≤ high ∨ high = -4) ∧
      (nibble_low3 (low_nibble (packed_byte high low)) = low.natAbs ↔ 0 ≤ low ∨ low = -4)) ∧
    (expand_sign_magnitude (high_nibble (packed_byte high low))
        = (if 0 ≤ high then high else -(8 + high)) ∧
      expand_sign_magnitude (low_nibble (packed_byte high low))
        = (if 0 ≤ low then low else -(8 + low))) ∧
    ((expand_sign_magnitude (high_nibble (packed_byte high low)) = high
        ↔ 0 ≤ high ∨ high = -4) ∧
      (expand_sign_magnitude (low_nibble (packed_byte high low)) = low
        ↔ 0 ≤ low ∨ low = -4)) ∧
    sign_extend4 (high_nibble (packed_byte high low)) = high ∧
    sign_extend4 (low_nibble (packed_byte high low)) = low := by
  obtain ⟨h1, h2⟩ := hh
  obtain ⟨l1, l2⟩ := hl
  interval_cases high <;> interval_cases low <;> decide

/-- Witness of C1 amended, at `high = -4`, `low = -5`: the byte is `0xCB`; the
sign-magnitude decoder returns -4 for the high nibble and -3 for the low one, and
sign extension returns -4 and -5. -/
theorem packed_byte_twos_complement_witness :
    byteBits (packed_byte (-4) (-5)) = 0xCB ∧
    (expand_sign_magnitude (high_nibble (packed_byte (-4) (-5))) = (if (0 : Int) ≤ -4 then -4 else -(8 + -4)) ∧
      expand_sign_magnitude (low_nibble (packed_byte (-4) (-5))) = (if (0 : Int) ≤ -5 then -5 else -(8 + -5))) ∧
    sign_extend4 (high_nibble (packed_byte (-4) (-5))) = -4 ∧
    sign_extend4 (low_nibble (packed_byte (-4) (-5))) = -5 :=
  ⟨by decide, (packed_byte_twos_complement (-4) (-5) (by decide) (by decide)).2.2.2.2.1,
    (packed_byte_twos_complement (-4) (-5) (by decide) (by decide)).2.2.2.2.2.2⟩

/-- C10: for `high`, `low` in `[-7, 7]` and `b` the stored byte, `b >> 4` is
`high` and the 4-bit sign extension of `b & 0x0F` is `low`; the high nibble of
`b` is the same whatever `low` is; and two pairs of `[-7, 7] x [-7, 7]` with the
same byte are equal. -/
theorem packed_byte_lossless (high low : Int)
    (hh : -7 ≤ high ∧ high ≤ 7) (hl : -7 ≤ low ∧ low ≤ 7) :
    sar32 (packed_byte high low) 4 = high ∧
    sign_extend4 (toBits32 (and32 (packed_byte high low) 0x0F)) = low ∧
    and32 (packed_byte high low) 0xF0 = and32 (packed_byte high 0) 0xF0 ∧
    high_nibble (packed_byte high low) = high_nibble (packed_byte high 0) ∧
    (-128 ≤ packed_byte high low ∧ packed_byte high low ≤ 127) ∧
    ∀ high2 low2 : Int, -7 ≤ high2 ∧ high2 ≤ 7 → -7 ≤ low2 ∧ low2 ≤ 7 →
      packed_byte high2 low2 = packed_byte high low → high2 = high ∧ low2 = low := by
  have dec : ∀ h l : Int, -7 ≤ h ∧ h ≤ 7 → -7 ≤ l ∧ l ≤ 7 →
      sar32 (packed_byte h l) 4 = h ∧
      sign_extend4 (toBits32 (and32 (packed_byte h l) 0x0F)) = l ∧
      and32 (packed_byte h l) 0xF0 = and32 (packed_byte h 0) 0xF0 ∧
      high_nibble (packed_byte h l) = high_nibble (packed_byte h 0) ∧
      (-128 ≤ packed_byte h l ∧ packed_byte h l ≤ 127) := by
    intro h l ⟨h1, h2⟩ ⟨l1, l2⟩
    interval_cases h <;> interval_cases l <;> decide
  obtain ⟨a1, a2, a3, a4, a5⟩ := dec high low hh hl
  refine ⟨a1, a2, a3, a4, a5, ?_⟩
  intro high2 low2 hh2 hl2 heq
  obtain ⟨b1, b2, -, -, -⟩ := dec high2 low2 hh2 hl2
  rw [heq] at b1 b2
  exact ⟨b1.symm.trans a1, b2.symm.trans a2⟩

/-- Witness of C10, at `high = -3`, `low = -5`: the byte is `0xDB = -37`. -/
theorem packed_byte_lossless_witness :
    packed_byte (-3) (-5) = -37 ∧ sar32 (packed_byte (-3) (-5)) 4 = -3 ∧
    sign_extend4 (toBits32 (and32 (packed_byte (-3) (-5)) 0x0F)) = -5 :=
  ⟨by decide, (packed_byte_lossless (-3) (-5) (by decide) (by decide)).1,
    (packed_byte_lossless (-3) (-5) (by decide) (by decide)).2.1⟩

/-! ### Frequency channels of a device -/

/-- C2 at the failing input: for the last device, `gpu = 7 = N_GPUS - 1`, the
first channel is `chan 7 0 = 2048 = TOT_CHANNELS`, outside `[0, TOT_CHANNELS)`,
and so is every channel of that device; the sub-bands of devices 0 and 1 are the
channels 0..255 and 292..547, so that channel 256 belongs to no device. -/
theorem chan_last_device_out_of_range :
    chan 7 0 = 2048 ∧ ¬ (chan 7 0 < TOT_CHANNELS) ∧
    (∀ i : Int, 0 ≤ i → TOT_CHANNELS ≤ chan 7 i) ∧
    chan 0 255 = 255 ∧ chan 1 0 = 292 ∧
    (∀ gpu i : Int, 0 ≤ gpu → gpu < N_GPUS → 0 ≤ i → i < debug.N_FREQUENCIES →
      chan gpu i ≠ 256) := by
  refine ⟨by decide, by decide, ?_, by decide, by decide, ?_⟩
  · intro i hi
    have h : chan 7 i = 2048 + i := by
      simp [chan, ZERO_PT, TOT_CHANNELS, N_GPUS]
      decide
    rw [h]
    simp only [TOT_CHANNELS]
    omega
  · intro gpu i g0 g1 i0 i1
    simp only [N_GPUS] at g1
    have hi : i < 256 := i1
    interval_cases gpu <;>
      simp only [chan, ZERO_PT, TOT_CHANNELS, N_GPUS] <;>
      norm_num [Int.tdiv] <;> omega

/-- Witness of C2: channel 256 is not channel 100 of device 3, which is 977. -/
theorem chan_last_device_out_of_range_witness :
    chan 3 100 = 977 ∧ chan 3 100 ≠ 256 :=
  ⟨by decide, chan_last_device_out_of_range.2.2.2.2.2 3 100 (by decide) (by decide) (by decide)
    (by decide)⟩

/-! ### Geometry files -/

/-- Values of the conversion to `float`: 5 and `FLT_MAX` are unchanged, `0.1`
becomes `13421773 * 2^-27`, the tie `2^-150` becomes 0, the tie
`FLT_MAX + 2^103` becomes `2^128`, and `1e50` becomes a number beyond `FLT_MAX`
as well. -/
theorem nearest_float_values :
    nearest_float 5 = 5 ∧ nearest_float FLT_MAX = FLT_MAX ∧
    nearest_float (1 / 10) = 13421773 / 134217728 ∧
    nearest_float (1 / 2 ^ 150) = 0 ∧ nearest_float (3 / 2 ^ 150) = 1 / 2 ^ 148 ∧
    FLT_MAX < nearest_float (10 ^ 50) ∧ nearest_float (FLT_MAX + 2 ^ 103) = 2 ^ 128 ∧
    nearest_float (FLT_MAX + 2 ^ 102) = FLT_MAX ∧ nearest_float (-(10 ^ 50)) < -FLT_MAX ∧
    in_float_range 5 ∧ ¬ in_float_range (10 ^ 50) := by
  decide!

/-- The stream after `k` extractions from a file whose values all fit a `float`:
the next extraction yields the `float` nearest to value `k` of the file when
there is one and keeps the variable otherwise. -/
theorem extract_at (vs : List ℚ) (hr : ∀ t ∈ vs, in_float_range t) (k : Nat) (cur : ℚ) :
    ifstream.extract ⟨vs.drop k, decide (vs.length < k)⟩ cur =
      (⟨vs.drop (k + 1), decide (vs.length < k + 1)⟩, (vs[k]?.map nearest_float).getD cur) := by
  unfold ifstream.extract
  rcases Nat.lt_or_ge k vs.length with hk | hk
  · have h0 : ¬ vs.length < k := by omega
    have h1 : ¬ vs.length < k + 1 := by omega
    have h2 : vs.drop k = vs[k] :: vs.drop (k + 1) := List.drop_eq_getElem_cons hk
    have h4 : vs[k]? = some vs[k] := List.getElem?_eq_getElem hk
    obtain ⟨r1, r2⟩ := hr vs[k] (List.getElem_mem hk)
    rw [h2, h4]
    simp [h0, h1, not_lt.mpr r1, not_lt.mpr r2]
  · have h1 : vs.length < k + 1 := by omega
    have h2 : vs.drop k = [] := List.drop_eq_nil_of_le hk
    have h3 : vs.drop (k + 1) = [] := List.drop_eq_nil_of_le (by omega)
    have h4 : vs[k]? = none := List.getElem?_eq_none hk
    rw [h2, h3, h4]
    by_cases h : vs.length < k <;> simp [h, h1]

/-- State of the loop of `read_in_position_locations` after `m` iterations on a
stream that has not failed, for values that all fit a `float`. -/
theorem read_position_loop (vs : List ℚ) (hr : ∀ t ∈ vs, in_float_range t)
    (pos0 : Nat → antenna) (m : Nat) :
    (List.range m).foldl read_position (⟨vs, false⟩, pos0) =
      (⟨vs.drop (3 * m), decide (vs.length < 3 * m)⟩,
        fun ant => if ant < m then
          ⟨(vs[3 * ant]?.map nearest_float).getD (pos0 ant).x,
            (vs[3 * ant + 1]?.map nearest_float).getD (pos0 ant).y,
            (vs[3 * ant + 2]?.map nearest_float).getD (pos0 ant).z⟩
        else pos0 ant) := by
  induction m with
  | zero => simp
  | succ m ih =>
    rw [List.range_succ, List.foldl_append, ih]
    simp only [List.foldl_cons, List.foldl_nil, read_position, lt_irrefl, if_false]
    rw [extract_at vs hr, extract_at vs hr, extract_at vs hr]
    refine Prod.ext ?_ ?_
    · simp only [Nat.mul_succ]
    · funext ant
      simp only [Function.update_apply]
      by_cases h : ant = m
      · subst h; simp
      · by_cases h2 : ant < m
        · have : ant < m + 1 := by omega
          simp [h, h2, this]
        · have : ¬ ant < m + 1 := by omega
          simp [h, h2, this]

/-- State of the loop of `read_in_beam_directions` after `m` iterations on a
stream that has not failed, for values that all fit a `float`. -/
theorem read_direction_loop (vs : List ℚ) (hr : ∀ t ∈ vs, in_float_range t)
    (dir0 : Nat → beam_direction) (m : Nat) :
    (List.range m).foldl read_direction (⟨vs, false⟩, dir0) =
      (⟨vs.drop (2 * m), decide (vs.length < 2 * m)⟩,
        fun b => if b < m then
          ⟨(vs[2 * b]?.map nearest_float).getD (dir0 b).theta,
            (vs[2 * b + 1]?.map nearest_float).getD (dir0 b).phi⟩
        else dir0 b) := by
  induction m with
  | zero => simp
  | succ m ih =>
    rw [List.range_succ, List.foldl_append, ih]
    simp only [List.foldl_cons, List.foldl_nil, read_direction, lt_irrefl, if_false]
    rw [extract_at vs hr, extract_at vs hr]
    refine Prod.ext ?_ ?_
    · simp only [Nat.mul_succ]
    · funext b
      simp only [Function.update_apply]
      by_cases h : b = m
      · subst h; simp
      · by_cases h2 : b < m
        · have : b < m + 1 := by omega
          simp [h, h2, this]
        · have : ¬ b < m + 1 := by omega
          simp [h, h2, this]

/-- On a stream that has failed the loop of `read_in_position_locations` changes
nothing. -/
theorem read_position_failed (vs : List ℚ) (pos0 : Nat → antenna) (m : Nat) :
    (List.range m).foldl read_position (⟨vs, true⟩, pos0) = (⟨vs, true⟩, pos0) := by
  induction m with
  | zero => simp
  | succ m ih =>
    rw [List.range_succ, List.foldl_append, ih]
    simp [read_position, ifstream.extract]

/-- On a stream that has failed the loop of `read_in_beam_directions` changes
nothing. -/
theorem read_direction_failed (vs : List ℚ) (dir0 : Nat → beam_direction) (m : Nat) :
    (List.range m).foldl read_direction (⟨vs, true⟩, dir0) = (⟨vs, true⟩, dir0) := by
  induction m with
  | zero => simp
  | succ m ih =>
    rw [List.range_succ, List.foldl_append, ih]
    simp [read_direction, ifstream.extract]

/-- The stream is good after the count when the count fits an `int`. -/
theorem open_of_countFitsInt (file : GeometryFile) (h : file.countFitsInt) :
    ifstream.open_and_read_count file = (⟨file.values, false⟩, file.count) := by
  obtain ⟨h1, h2⟩ := h
  unfold ifstream.open_and_read_count
  rw [if_neg (by omega), if_neg (by omega)]

/-- The table that `read_in_position_locations` leaves when the count fits an
`int` and every value fits a `float`: a coordinate the file has a value for holds
the nearest `float`, any other coordinate is as it was before the call. -/
theorem read_in_position_locations_pos (c : Config) (file : GeometryFile)
    (pos0 : Nat → antenna) (h : file.countFitsInt)
    (hr : ∀ t ∈ file.values, in_float_range t) :
    (read_in_position_locations c file pos0).pos =
      fun ant => if ant < c.N_ANTENNAS.toNat then
          ⟨(file.values[3 * ant]?.map nearest_float).getD (pos0 ant).x,
            (file.values[3 * ant + 1]?.map nearest_float).getD (pos0 ant).y,
            (file.values[3 * ant + 2]?.map nearest_float).getD (pos0 ant).z⟩
        else pos0 ant := by
  simp only [read_in_position_locations, open_of_countFitsInt file h,
    read_position_loop file.values hr]

/-- The table that `read_in_beam_directions` leaves when the count fits an `int`
and every value fits a `float`. -/
theorem read_in_beam_directions_dir (c : Config) (file : GeometryFile)
    (dir0 : Nat → beam_direction) (h : file.countFitsInt)
    (hr : ∀ t ∈ file.values, in_float_range t) :
    (read_in_beam_directions c file dir0).dir =
      fun b => if b < c.N_BEAMS.toNat then
          ⟨(file.values[2 * b]?.map nearest_float).getD (dir0 b).theta,
            (file.values[2 * b + 1]?.map nearest_float).getD (dir0 b).phi⟩
        else dir0 b := by
  simp only [read_in_beam_directions, open_of_countFitsInt file h,
    read_direction_loop file.values hr]

/-- Where the readers do what C3 says: the count fits an `int`, every value fits a
`float`, the file holds whole triples (pairs) only, and the table is freshly
constructed. Then entry `ant < N_ANTENNAS` is the triple of the file, each value
converted to `float`, when the file has it, and `(0, 0, 0)` otherwise; likewise
for the beam directions. -/
theorem geometry_read_whole_entries (c : Config) (file : GeometryFile)
    (h : file.countFitsInt) (hr : ∀ t ∈ file.values, in_float_range t) :
    (∀ n ant : Nat, file.values.length = 3 * n → ant < c.N_ANTENNAS.toNat →
      (read_in_position_locations c file (fun _ => antenna.new)).pos ant =
        if ant < n then
          ⟨(file.values[3 * ant]?.map nearest_float).getD 0,
            (file.values[3 * ant + 1]?.map nearest_float).getD 0,
            (file.values[3 * ant + 2]?.map nearest_float).getD 0⟩
        else ⟨0, 0, 0⟩) ∧
    (∀ n b : Nat, file.values.length = 2 * n → b < c.N_BEAMS.toNat →
      (read_in_beam_directions c file (fun _ => beam_direction.new)).dir b =
        if b < n then
          ⟨(file.values[2 * b]?.map nearest_float).getD 0,
            (file.values[2 * b + 1]?.map nearest_float).getD 0⟩
        else ⟨0, 0⟩) := by
  constructor
  · intro n ant hn hant
    rw [read_in_position_locations_pos c file _ h hr]
    by_cases hlt : ant < n
    · simp [hant, hlt, antenna.new]
    · have e0 : file.values[3 * ant]? = none := List.getElem?_eq_none (by omega)
      have e1 : file.values[3 * ant + 1]? = none := List.getElem?_eq_none (by omega)
      have e2 : file.values[3 * ant + 2]? = none := List.getElem?_eq_none (by omega)
      simp [hant, hlt, e0, e1, e2, antenna.new]
  · intro n b hn hb
    rw [read_in_beam_directions_dir c file _ h hr]
    by_cases hlt : b < n
    · simp [hb, hlt, beam_direction.new]
    · have e0 : file.values[2 * b]? = none := List.getElem?_eq_none (by omega)
      have e1 : file.values[2 * b + 1]? = none := List.getElem?_eq_none (by omega)
      simp [hb, hlt, e0, e1, beam_direction.new]

/-- Both readers return 0 and set their flag, whatever the file holds. -/
theorem geometry_read_returns_zero (c : Config) (file : GeometryFile)
    (pos0 : Nat → antenna) (dir0 : Nat → beam_direction) :
    (read_in_position_locations c file pos0).ret = 0 ∧
    (read_in_position_locations c file pos0).pos_set = true ∧
    (read_in_beam_directions c file dir0).ret = 0 ∧
    (read_in_beam_directions c file dir0).dir_set = true :=
  ⟨rfl, rfl, rfl, rfl⟩

set_option maxRecDepth 20000 in
/-- C3 at the failing inputs, each reader called with the production constants.
The positions file `64 5` holds no triple, yet entry 0 of a freshly constructed
table becomes `(5, 0, 0)`, not `(0, 0, 0)`; the directions file `256 5` leaves
entry 0 at `(5, 0)`. The file `1 1 2 3` read into a table holding `(9, 9, 9)`
prints the warning and leaves entry 1, which the file lacks, at `(9, 9, 9)`.
The file `64 1 2 1e50 7 8 9` stores `(1, 2, FLT_MAX)` in entry 0 and, the stream
having failed, leaves entry 1 at `(0, 0, 0)` although the file holds `7 8 9`.
With the count `2147483648`, which does not fit an `int`, the triple `1 2 3` of
the file is not stored. -/
theorem geometry_read_not_zero_filled :
    ((⟨64, [5]⟩ : GeometryFile).values.length < 3 * (0 + 1) ∧
      (read_in_position_locations production ⟨64, [5]⟩ (fun _ => antenna.new)).pos 0
        = ⟨5, 0, 0⟩ ∧
      (read_in_position_locations production ⟨64, [5]⟩ (fun _ => antenna.new)).pos 0
        ≠ ⟨0, 0, 0⟩) ∧
    ((read_in_beam_directions production ⟨256, [5]⟩ (fun _ => beam_direction.new)).dir 0
        = ⟨5, 0⟩ ∧
      (read_in_beam_directions production ⟨256, [5]⟩ (fun _ => beam_direction.new)).dir 0
        ≠ ⟨0, 0⟩) ∧
    ((read_in_position_locations production ⟨1, [1, 2, 3]⟩ (fun _ => ⟨9, 9, 9⟩)).warned = true ∧
      (read_in_position_locations production ⟨1, [1, 2, 3]⟩ (fun _ => ⟨9, 9, 9⟩)).pos 0
        = ⟨1, 2, 3⟩ ∧
      (read_in_position_locations production ⟨1, [1, 2, 3]⟩ (fun _ => ⟨9, 9, 9⟩)).pos 1
        = ⟨9, 9, 9⟩) ∧
    ((read_in_position_locations production ⟨64, [1, 2, 10 ^ 50, 7, 8, 9]⟩
        (fun _ => antenna.new)).pos 0 = ⟨1, 2, FLT_MAX⟩ ∧
      (read_in_position_locations production ⟨64, [1, 2, 10 ^ 50, 7, 8, 9]⟩
        (fun _ => antenna.new)).pos 1 = ⟨0, 0, 0⟩) ∧
    (read_in_position_locations production ⟨2147483648, [1, 2, 3]⟩
        (fun _ => antenna.new)).pos 0 = ⟨0, 0, 0⟩ := by
  decide!

/-! ### Debug export -/

/-- C6 at the failing input `rows = 0`: for every buffer and every `cols` the
text written is `"A = [["` alone, two opening brackets and no closing one,
where the nested bracket list with no row is `"A = []"` and a newline. -/
theorem write_array_zero_rows_unbalanced (show_float : ℚ → String) (data_out : Int → ℚ)
    (cols : Int) :
    write_array_to_disk_as_python_file show_float data_out 0 cols = "A = [[" ∧
    nested_bracket_list show_float data_out 0 cols = "A = []\n" ∧
    write_array_to_disk_as_python_file show_float data_out 0 cols
      ≠ nested_bracket_list show_float data_out 0 cols ∧
    count_char '[' (write_array_to_disk_as_python_file show_float data_out 0 cols) = 2 ∧
    count_char ']' (write_array_to_disk_as_python_file show_float data_out 0 cols) = 0 := by
  have h1 : write_array_to_disk_as_python_file show_float data_out 0 cols = "A = [[" := rfl
  have h2 : nested_bracket_list show_float data_out 0 cols = "A = []\n" := rfl
  refine ⟨h1, h2, ?_, ?_, ?_⟩
  · rw [h1, h2]; decide
  · rw [h1]; decide
  · rw [h1]; decide

/-- Joining a non-empty list extended by one string. -/
theorem join_with_snoc (sep : String) (l : List String) (x : String) (h : l ≠ []) :
    join_with sep (l ++ [x]) = join_with sep l ++ sep ++ x := by
  induction l with
  | nil => exact absurd rfl h
  | cons a t ih =>
    cases t with
    | nil => simp [join_with]
    | cons b rest =>
      have h2 := ih (by simp)
      rw [List.cons_append] at h2
      rw [List.cons_append, List.cons_append]
      simp only [join_with] at h2 ⊢
      rw [h2]
      simp only [String.append_assoc]

/-- Joining `k + 1` strings: the first `k`, each followed by the separator, then the
last one. -/
theorem join_with_range_succ (sep : String) (e : Nat → String) (k : Nat) :
    join_with sep ((List.range (k + 1)).map e) = sep_terminated sep e k ++ e k := by
  induction k with
  | zero => simp [join_with, sep_terminated]
  | succ k ih =>
    rw [List.range_succ, List.map_append, List.map_singleton,
      join_with_snoc _ _ _ (by simp), ih]
    simp only [sep_terminated]

/-- The inner loop appends the values of the row separated by commas. -/
theorem write_row_eq (show_float : ℚ → String) (data_out : Int → ℚ) (cols jj : Int)
    (f : String) :
    write_row show_float data_out cols jj f = f ++ join_with ","
      ((List.range cols.toNat).map fun (ii : Nat) => show_float (data_out (jj * cols + (ii : Int)))) := by
  unfold write_row
  rcases Nat.eq_zero_or_pos cols.toNat with h0 | hpos
  · rw [h0]; simp [join_with]
  · obtain ⟨k, hk⟩ : ∃ k, cols.toNat = k + 1 := ⟨cols.toNat - 1, by omega⟩
    have hc : cols = (k : Int) + 1 := by omega
    rw [hk]
    have inv : ∀ m, m ≤ k →
        (List.range m).foldl
          (fun (f : String) (ii : Nat) =>
            let f := f ++ show_float (data_out (jj * cols + (ii : Int)))
            if (ii : Int) ≠ cols - 1 then f ++ "," else f) f
        = f ++ sep_terminated ","
            (fun ii => show_float (data_out (jj * cols + (ii : Int)))) m := by
      intro m
      induction m with
      | zero => intro _; simp [sep_terminated]
      | succ m ih =>
        intro hm
        rw [List.range_succ, List.foldl_append, ih (by omega)]
        have hne : (m : Int) ≠ cols - 1 := by omega
        simp only [List.foldl_cons, List.foldl_nil, hne, ne_eq, not_false_eq_true, if_true,
          sep_terminated, String.append_assoc]
    rw [join_with_range_succ, List.range_succ, List.foldl_append, inv k le_rfl]
    have he : (k : Int) = cols - 1 := by omega
    simp only [List.foldl_cons, List.foldl_nil, he, ne_eq, not_true_eq_false, if_false,
      String.append_assoc]

/-- The inner loop started after an opening bracket, followed by a closing bracket,
appends one bracketed row. -/
theorem write_row_bracketed (show_float : ℚ → String) (data_out : Int → ℚ) (cols : Int)
    (jj : Nat) (p : String) :
    write_row show_float data_out cols (jj : Int) (p ++ "[") ++ "]"
      = p ++ bracketed_row show_float data_out cols jj := by
  rw [write_row_eq, bracketed_row]
  simp only [String.append_assoc]

/-- With at least one row the text written is the nested bracket list of the
specification, whatever `cols` is. -/
theorem write_array_of_pos_rows (show_float : ℚ → String) (data_out : Int → ℚ)
    (rows cols : Int) (hr : 1 ≤ rows) :
    write_array_to_disk_as_python_file show_float data_out rows cols
      = nested_bracket_list show_float data_out rows cols := by
  unfold write_array_to_disk_as_python_file nested_bracket_list
  obtain ⟨k, hk⟩ : ∃ k, rows.toNat = k + 1 := ⟨rows.toNat - 1, by omega⟩
  have hc : rows = (k : Int) + 1 := by omega
  rw [hk]
  have inv : ∀ m, m ≤ k →
      (List.range m).foldl
        (fun (f : String) (jj : Nat) =>
          let f := write_row show_float data_out cols (jj : Int) f
          if (jj : Int) ≠ rows - 1 then f ++ "],\n[" else f ++ "]]" ++ "\n") "A = [["
      = "A = [" ++ sep_terminated ",\n" (bracketed_row show_float data_out cols) m ++ "[" := by
    intro m
    induction m with
    | zero => intro _; simp [sep_terminated]
    | succ m ih =>
      intro hm
      rw [List.range_succ, List.foldl_append, ih (by omega)]
      have hne : (m : Int) ≠ rows - 1 := by omega
      have hs : ∀ w : String, w ++ "],\n[" = w ++ "]" ++ ",\n" ++ "[" := by
        intro w
        rw [String.append_assoc, String.append_assoc]
        rfl
      simp only [List.foldl_cons, List.foldl_nil, hne, ne_eq, not_false_eq_true, if_true]
      rw [hs, write_row_bracketed]
      simp only [sep_terminated, String.append_assoc]
  rw [join_with_range_succ, List.range_succ, List.foldl_append, inv k le_rfl]
  have he : ¬ ((k : Int) ≠ rows - 1) := by omega
  have hs : ∀ w : String, w ++ "]]" ++ "\n" = w ++ "]" ++ "]" ++ "\n" := by
    intro w
    rw [String.append_assoc w "]" "]"]
    rfl
  simp only [List.foldl_cons, List.foldl_nil, he, if_false]
  rw [hs, write_row_bracketed]
  simp only [String.append_assoc]

/-- The text written for the 2 x 3 array `0, 1, 2, 3, 4, 5`, the values shown as
integers. -/
theorem write_array_two_by_three :
    write_array_to_disk_as_python_file (fun q => toString q.num) (fun i => (i : ℚ)) 2 3
      = "A = [[0,1,2],\n[3,4,5]]\n" := by
  decide

/-! ### Synthetic test data -/

/-- The iterations of the loops are the tuples inside the four loop bounds. -/
theorem mem_loop_iterations (c : Config) (it : Iteration) :
    it ∈ loop_iterations c ↔
      (0 ≤ it.direction ∧ it.direction < c.N_DIRS) ∧ (0 ≤ it.i ∧ it.i < c.N_FREQUENCIES) ∧
      (0 ≤ it.j ∧ it.j < (N_TIMESTEPS_PER_GEMM c).eval) ∧ (0 ≤ it.k ∧ it.k < c.N_ANTENNAS) := by
  obtain ⟨d, i, j, k⟩ := it
  simp only [loop_iterations, List.mem_flatMap, List.mem_map, List.mem_range,
    Iteration.mk.injEq]
  constructor
  · rintro ⟨d1, hd, i1, hi, j1, hj, k1, hk, rfl, rfl, rfl, rfl⟩
    omega
  · rintro ⟨⟨h1, h2⟩, ⟨h3, h4⟩, ⟨h5, h6⟩, ⟨h7, h8⟩⟩
    exact ⟨d.toNat, by omega, i.toNat, by omega, j.toNat, by omega, k.toNat, by omega,
      by omega, by omega, by omega, by omega⟩

/-- A list built from `List.range n` by `flatMap` has no duplicates when each
piece has none and every element of piece `x` carries `x` as its key. -/
theorem nodup_flatMap_range {β : Type} (n : Nat) (f : Nat → List β) (key : β → Int)
    (h1 : ∀ x, (f x).Nodup) (h2 : ∀ x b, b ∈ f x → key b = (x : Int)) :
    ((List.range n).flatMap f).Nodup := by
  rw [List.nodup_flatMap]
  refine ⟨fun x _ => h1 x, (List.nodup_range n).imp ?_⟩
  intro a b hab c hca hcb
  have ha := h2 a c hca
  have hb := h2 b c hcb
  omega

/-- The loops execute the body once for each tuple of loop variables. -/
theorem nodup_loop_iterations (c : Config) : (loop_iterations c).Nodup := by
  unfold loop_iterations
  refine nodup_flatMap_range _ _ Iteration.direction (fun d => ?_) ?_
  · refine nodup_flatMap_range _ _ Iteration.i (fun i => ?_) ?_
    · refine nodup_flatMap_range _ _ Iteration.j (fun j => ?_) ?_
      · refine (List.nodup_range _).map ?_
        intro a b hab
        simp only [Iteration.mk.injEq] at hab
        omega
      · intro j b hb
        simp only [List.mem_map] at hb
        obtain ⟨k, _, rfl⟩ := hb
        rfl
    · intro i b hb
      simp only [List.mem_flatMap, List.mem_map] at hb
      obtain ⟨j, _, k, _, rfl⟩ := hb
      rfl
  · intro d b hb
    simp only [List.mem_flatMap, List.mem_map] at hb
    obtain ⟨i, _, j, _, k, _, rfl⟩ := hb
    rfl

/-- C `round` of a real in `[-n, n]` is an integer in `[-n, n]`. -/
theorem c_round_bound (x : ℝ) (n : ℤ) (h1 : -(n : ℝ) ≤ x) (h2 : x ≤ n) :
    -n ≤ c_round x ∧ c_round x ≤ n := by
  have hn : (0 : ℝ) ≤ n := by linarith
  have hn0 : (0 : ℤ) ≤ n := by exact_mod_cast hn
  unfold c_round
  split_ifs with h
  · constructor
    · have h0 : (0 : ℤ) ≤ ⌊x + 1 / 2⌋ := Int.floor_nonneg.mpr (by linarith)
      omega
    · have h3 : ⌊x + 1 / 2⌋ < n + 1 := by
        rw [Int.floor_lt]
        push_cast
        linarith
      omega
  · push_neg at h
    constructor
    · have h3 : -n - 1 < ⌈x - 1 / 2⌉ := by
        rw [Int.lt_ceil]
        push_cast
        linarith
      omega
    · have h3 : ⌈x - 1 / 2⌉ ≤ 0 := by
        rw [Int.ceil_le]
        push_cast
        linarith
      omega

/-- C7: over the reals, for every antenna position `(x, y)`, every pair of
direction angles and every non-zero wavelength, `high = round(SIG_MAX_VAL *
cos(phase))` and `low = round(SIG_MAX_VAL * sin(phase))` are integers of
`[-7, 7]`, which the conversion to `char` leaves unchanged. -/
theorem samples_in_four_bit_range (pos_x pos_y dir_x dir_phi wavelength : ℝ)
    (hw : wavelength ≠ 0) :
    (-7 ≤ sample_high pos_x pos_y dir_x dir_phi wavelength ∧
      sample_high pos_x pos_y dir_x dir_phi wavelength ≤ 7) ∧
    (-7 ≤ sample_low pos_x pos_y dir_x dir_phi wavelength ∧
      sample_low pos_x pos_y dir_x dir_phi wavelength ≤ 7) ∧
    toChar (sample_high pos_x pos_y dir_x dir_phi wavelength)
      = sample_high pos_x pos_y dir_x dir_phi wavelength ∧
    toChar (sample_low pos_x pos_y dir_x dir_phi wavelength)
      = sample_low pos_x pos_y dir_x dir_phi wavelength := by
  have _ := hw
  have hc1 := Real.neg_one_le_cos (phase pos_x pos_y dir_x dir_phi wavelength)
  have hc2 := Real.cos_le_one (phase pos_x pos_y dir_x dir_phi wavelength)
  have hs1 := Real.neg_one_le_sin (phase pos_x pos_y dir_x dir_phi wavelength)
  have hs2 := Real.sin_le_one (phase pos_x pos_y dir_x dir_phi wavelength)
  have hhigh : -7 ≤ sample_high pos_x pos_y dir_x dir_phi wavelength ∧
      sample_high pos_x pos_y dir_x dir_phi wavelength ≤ 7 := by
    apply c_round_bound
    · simp only [SIG_MAX_VAL]; push_cast; linarith
    · simp only [SIG_MAX_VAL]; push_cast; linarith
  have hlow : -7 ≤ sample_low pos_x pos_y dir_x dir_phi wavelength ∧
      sample_low pos_x pos_y dir_x dir_phi wavelength ≤ 7 := by
    apply c_round_bound
    · simp only [SIG_MAX_VAL]; push_cast; linarith
    · simp only [SIG_MAX_VAL]; push_cast; linarith
  refine ⟨hhigh, hlow, ?_, ?_⟩
  · unfold toChar; omega
  · unfold toChar; omega

/-- Witness of C7: an antenna at `(1, 2)`, both angles 0, wavelength 1; the phase
is 0 and the samples are `(7, 0)`. -/
theorem samples_in_four_bit_range_witness :
    (1 : ℝ) ≠ 0 ∧ sample_high 1 2 0 0 1 = 7 ∧ sample_low 1 2 0 0 1 = 0 ∧
    (-7 ≤ sample_high 1 2 0 0 1 ∧ sample_high 1 2 0 0 1 ≤ 7) := by
  have hp : phase 1 2 0 0 1 = 0 := by simp [phase]
  refine ⟨one_ne_zero, ?_, ?_, (samples_in_four_bit_range 1 2 0 0 1 one_ne_zero).1⟩
  · rw [sample_high, hp, Real.cos_zero, c_round, SIG_MAX_VAL]
    norm_num
  · rw [sample_low, hp, Real.sin_zero, c_round, SIG_MAX_VAL]
    norm_num

/-- C8 at the failing input: the loops of the `DEBUG` build reach the iteration
`direction = 256, i = j = k = 0`, whose read `dir[direction]` has index
`256 = N_BEAMS`, outside a table of `N_BEAMS` entries, and they go on to
`direction = 1023 = N_DIRS - 1`; the reads `pos[k]` stay inside a table of
`N_ANTENNAS` entries. -/
theorem generate_test_data_dir_read_out_of_bounds :
    ((⟨256, 0, 0, 0⟩ : Iteration) ∈ loop_iterations debug ∧
      dir_read ⟨256, 0, 0, 0⟩ = 256 ∧ ¬ (dir_read ⟨256, 0, 0, 0⟩ < debug.N_BEAMS)) ∧
    ((⟨1023, 255, 15, 63⟩ : Iteration) ∈ loop_iterations debug ∧
      ¬ (dir_read ⟨1023, 255, 15, 63⟩ < debug.N_BEAMS)) ∧
    (∀ it : Iteration, it ∈ loop_iterations debug →
      0 ≤ pos_read it ∧ pos_read it < debug.N_ANTENNAS) ∧
    (∀ it : Iteration, it ∈ loop_iterations debug →
      (dir_read it < debug.N_BEAMS ↔ it.direction < 256)) := by
  refine ⟨⟨?_, rfl, by decide⟩, ⟨?_, by decide⟩, ?_, ?_⟩
  · rw [mem_loop_iterations]; decide
  · rw [mem_loop_iterations]; decide
  · intro it hit
    rw [mem_loop_iterations] at hit
    exact hit.2.2.2
  · intro it _
    exact Iff.rfl

/-- Witness of C8: the statement about `pos[k]` at the last iteration of the
loops. -/
theorem generate_test_data_dir_read_out_of_bounds_witness :
    (⟨1023, 255, 15, 63⟩ : Iteration) ∈ loop_iterations debug ∧
    (0 ≤ pos_read ⟨1023, 255, 15, 63⟩ ∧ pos_read ⟨1023, 255, 15, 63⟩ < debug.N_ANTENNAS) :=
  ⟨generate_test_data_dir_read_out_of_bounds.2.1.1,
    generate_test_data_dir_read_out_of_bounds.2.2.1 ⟨1023, 255, 15, 63⟩
      generate_test_data_dir_read_out_of_bounds.2.1.1⟩

/-- The byte index of an iteration in the `DEBUG` build with
`stride = N_TIMESTEPS_PER_GEMM*N_ANTENNAS`. -/
theorem data_index_debug (it : Iteration) :
    data_index debug ((N_TIMESTEPS_PER_GEMM debug).eval * debug.N_ANTENNAS) it
      = it.direction * 262144 + it.i * 1024 + it.j * 64 + it.k := by
  have h1 : (N_CX_IN_PER_GEMM debug).eval = 262144 := by decide
  have h2 : (N_TIMESTEPS_PER_GEMM debug).eval = 16 := by decide
  have h3 : debug.N_CX = 2 := rfl
  have h4 : debug.N_ANTENNAS = 64 := rfl
  unfold data_index
  rw [h1, h2, h3, h4, Int.mul_tdiv_cancel _ (by decide)]
  omega

/-- C9: in the `DEBUG` build, with `stride == N_TIMESTEPS_PER_GEMM*N_ANTENNAS`, the
byte index `direction*N_BYTES_PRE_EXPANSION_PER_GEMM + i*stride + j*N_ANTENNAS +
k` maps the iterations of the loops one to one onto `[0, INPUT_DATA_SIZE)`: every
write is inside a buffer of `INPUT_DATA_SIZE` bytes, two iterations with the same
index are the same iteration, the sequence of indices written has no repetition,
and every byte of the buffer is the index of an iteration. `INPUT_DATA_SIZE` is
268435456 and fits an `int`. -/
theorem data_index_bijective (stride : Int)
    (hs : stride = (N_TIMESTEPS_PER_GEMM debug).eval * debug.N_ANTENNAS) :
    (INPUT_DATA_SIZE debug).eval32 = some 268435456 ∧
    (INPUT_DATA_SIZE debug).eval = 268435456 ∧
    (∀ it : Iteration, it ∈ loop_iterations debug →
      0 ≤ data_index debug stride it ∧
      data_index debug stride it < (INPUT_DATA_SIZE debug).eval) ∧
    (∀ a b : Iteration, a ∈ loop_iterations debug → b ∈ loop_iterations debug →
      data_index debug stride a = data_index debug stride b → a = b) ∧
    ((loop_iterations debug).map (data_index debug stride)).Nodup ∧
    (∀ n : Int, 0 ≤ n → n < (INPUT_DATA_SIZE debug).eval →
      ∃ it : Iteration, it ∈ loop_iterations debug ∧ data_index debug stride it = n) := by
  subst hs
  have hsize : (INPUT_DATA_SIZE debug).eval = 268435456 := by decide
  have ht : (N_TIMESTEPS_PER_GEMM debug).eval = 16 := by decide
  have hd : debug.N_DIRS = 1024 := rfl
  have hf : debug.N_FREQUENCIES = 256 := rfl
  have ha : debug.N_ANTENNAS = 64 := rfl
  have inj : ∀ a b : Iteration, a ∈ loop_iterations debug → b ∈ loop_iterations debug →
      data_index debug ((N_TIMESTEPS_PER_GEMM debug).eval * debug.N_ANTENNAS) a
        = data_index debug ((N_TIMESTEPS_PER_GEMM debug).eval * debug.N_ANTENNAS) b →
      a = b := by
    intro a b hita hitb hab
    rw [mem_loop_iterations, ht, hd, hf, ha] at hita hitb
    rw [data_index_debug, data_index_debug] at hab
    obtain ⟨ad, ai, aj, ak⟩ := a
    obtain ⟨bd, bi, bj, bk⟩ := b
    simp only at hita hitb hab
    simp only [Iteration.mk.injEq]
    omega
  refine ⟨by decide, hsize, ?_, inj, ?_, ?_⟩
  · intro it hit
    rw [mem_loop_iterations, ht, hd, hf, ha] at hit
    rw [data_index_debug, hsize]
    omega
  · exact (nodup_loop_iterations debug).map_on (fun a ha b hb => inj a b ha hb)
  · intro n h0 h1
    rw [hsize] at h1
    refine ⟨⟨n / 262144, n % 262144 / 1024, n % 1024 / 64, n % 64⟩, ?_, ?_⟩
    · rw [mem_loop_iterations, ht, hd, hf, ha]
      simp only
      omega
    · rw [data_index_debug]
      simp only
      omega

/-- Witness of C9: the stride of the `DEBUG` build is 1024, and the last iteration
writes the last byte of the buffer. -/
theorem data_index_bijective_witness :
    (1024 : Int) = (N_TIMESTEPS_PER_GEMM debug).eval * debug.N_ANTENNAS ∧
    (⟨1023, 255, 15, 63⟩ : Iteration) ∈ loop_iterations debug ∧
    data_index debug 1024 ⟨1023, 255, 15, 63⟩ = 268435455 ∧
    data_index debug 1024 ⟨1023, 255, 15, 63⟩ < (INPUT_DATA_SIZE debug).eval :=
  ⟨by decide, (mem_loop_iterations debug _).2 (by decide), by decide,
    ((data_index_bijective 1024 (by decide)).2.2.1 ⟨1023, 255, 15, 63⟩
      ((mem_loop_iterations debug _).2 (by decide))).2⟩

end DSA
